import Mathlib

/-!
Shallow embedding of the simulation core of `GPT5-Thinking-Air-Combat.py`,
a pygame top-down arcade shooter.

Modelling conventions:
* Python floats are modelled as rationals (`ℚ`); Python ints as `ℤ`.
* `pygame.Rect` is four integers; `collidepoint` / `colliderect` follow the
  pygame semantics (right and bottom edges exclusive).
* `pygame.sprite.Group` is an insertion-ordered list; `kill()` is removal
  from the list; `GroupSingle` is an `Option`.
* Randomness (`random.uniform`, `random.randrange`, `random.random`,
  `random.choice`) and the transcendental real functions the code uses
  (`math.cos`/`math.sin` in the boss burst, `Vector2.normalize`'s square
  root) are supplied by an explicit `Oracle`; every theorem quantifies
  over the oracle.
* The starfield and all drawing are rendering-only and are outside the
  simulated state; the event queue is a list of abstract events and the
  pressed-key snapshot a record of booleans.
-/

namespace AirCombat

/-- Truncation toward zero, the semantics of Python's `int(float)`. -/
def pyInt (q : ℚ) : ℤ := if 0 ≤ q then ⌊q⌋ else -⌊-q⌋

/-- A 2D vector of rationals, modelling `pygame.Vector2`. -/
abbrev Vec := ℚ × ℚ

/-- Componentwise vector addition. -/
def Vec.add (a b : Vec) : Vec := (a.1 + b.1, a.2 + b.2)

/-- Scaling of a vector by a rational. -/
def Vec.smul (a : Vec) (k : ℚ) : Vec := (a.1 * k, a.2 * k)

/-- The screen width `WIDTH = 900` of the config section, as a rational. -/
def WIDTH : ℚ := 900

/-- The screen height `HEIGHT = 1200` of the config section, as a rational. -/
def HEIGHT : ℚ := 1200

/-- A `pygame.Rect`: left, top, width, height, all integers. -/
structure Rect where
  left : ℤ
  top : ℤ
  width : ℤ
  height : ℤ

/-- The right edge of a rect. -/
def Rect.right (r : Rect) : ℤ := r.left + r.width

/-- The bottom edge of a rect. -/
def Rect.bottom (r : Rect) : ℤ := r.top + r.height

/-- The center of a rect, as pygame computes it. -/
def Rect.center (r : Rect) : ℤ × ℤ :=
  (r.left + r.width / 2, r.top + r.height / 2)

/-- Assignment `rect.center = (x, y)`: moves the rect, keeping its size. -/
def Rect.setCenter (r : Rect) (c : ℤ × ℤ) : Rect :=
  { r with left := c.1 - r.width / 2, top := c.2 - r.height / 2 }

/-- `Rect.collidepoint`: the point is inside the rect; the right and bottom
edges do not count as inside. -/
def Rect.collidepoint (r : Rect) (p : ℤ × ℤ) : Bool :=
  decide (r.left ≤ p.1) && decide (p.1 < r.right) &&
    decide (r.top ≤ p.2) && decide (p.2 < r.bottom)

/-- `Rect.colliderect`: the two rects overlap in a region of positive area. -/
def Rect.colliderect (a b : Rect) : Bool :=
  decide (a.left < b.right) && decide (b.left < a.right) &&
    decide (a.top < b.bottom) && decide (b.top < a.bottom)

/-- The `Timer` dataclass: a countdown holding the remaining time `t`. -/
structure Timer where
  t : ℚ

/-- `Timer.update`: subtract the elapsed time, floored at 0. -/
def Timer.update (tm : Timer) (dt : ℚ) : Timer := ⟨max 0 (tm.t - dt)⟩

/-- `Timer.ready`: true iff the remaining time is ≤ 0. -/
def Timer.ready (tm : Timer) : Bool := decide (tm.t ≤ 0)

/-- `Timer.set`: overwrite the remaining time. -/
def Timer.set (_tm : Timer) (sec : ℚ) : Timer := ⟨sec⟩

/-- The geometric decay factor `SHAKE_DECAY = 0.9` of the camera shake. -/
def SHAKE_DECAY : ℚ := 0.9

/-- The `CameraShake` accumulator (its random `offset` is rendering-only
and not part of the simulated state). -/
structure CameraShake where
  power : ℚ

/-- `CameraShake.bump`: add to the accumulated magnitude, capped at 30. -/
def CameraShake.bump (c : CameraShake) (amt : ℚ) : CameraShake :=
  ⟨min 30 (c.power + amt)⟩

/-- `CameraShake.update`: geometric decay of the magnitude. -/
def CameraShake.update (c : CameraShake) : CameraShake :=
  ⟨c.power * SHAKE_DECAY⟩

/-- The draw colors used by the simulation core (they tag effects and
floating texts; their RGB values are rendering-only). -/
inductive Color
  | white
  | gray
  | yellow
  | orange
  | red
  | blue
  | cyan
  | green
  | purple

/-- The base enemy spawn interval `ENEMY_SPAWN_EVERY = 0.55` seconds. -/
def ENEMY_SPAWN_EVERY : ℚ := 0.55

/-- The value the spawn cooldown is reset to when it fires at elapsed time
`t`: `max(0.25, ENEMY_SPAWN_EVERY - min(0.3, self.time / 120))`
(line 389 of `Game.update`). -/
def spawnInterval (t : ℚ) : ℚ :=
  max 0.25 (ENEMY_SPAWN_EVERY - min 0.3 (t / 120))

/-- A `Bullet` sprite. `friendly` is set at construction and no method of
the source ever assigns it afterwards. -/
structure Bullet where
  pos : Vec
  vel : Vec
  friendly : Bool
  dmg : ℤ
  color : Color
  radius : ℤ
  rect : Rect

/-- `Bullet.__init__`: the rect starts at the origin with side `2 * radius`;
it is positioned on the first update. -/
def Bullet.init (pos vel : Vec) (friendly : Bool) (dmg : ℤ) (color : Color)
    (radius : ℤ) : Bullet :=
  ⟨pos, vel, friendly, dmg, color, radius, ⟨0, 0, radius * 2, radius * 2⟩⟩

/-- `Bullet.update`: integrate the velocity, recenter the rect, and report
whether the bullet survived (it kills itself 40 units outside the screen). -/
def Bullet.update (b : Bullet) (dt : ℚ) : Bullet × Bool :=
  let pos : Vec := (b.pos.1 + b.vel.1 * dt, b.pos.2 + b.vel.2 * dt)
  let b' := { b with pos := pos, rect := b.rect.setCenter (pyInt pos.1, pyInt pos.2) }
  (b', !(decide (pos.2 < -40) || decide (pos.2 > HEIGHT + 40) ||
         decide (pos.1 < -40) || decide (pos.1 > WIDTH + 40)))

/-- An `Explosion` effect sprite. -/
structure Explosion where
  pos : Vec
  timer : ℚ
  color : Color
  rect : Rect

/-- `Explosion.__init__` with `max_r = 36`. -/
def Explosion.init (pos : Vec) (color : Color) (duration : ℚ) : Explosion :=
  ⟨pos, duration, color, (Rect.mk 0 0 72 72).setCenter (pyInt pos.1, pyInt pos.2)⟩

/-- `Explosion.update`: count the timer down; dead once it reaches 0. -/
def Explosion.update (e : Explosion) (dt : ℚ) : Explosion × Bool :=
  ({ e with timer := e.timer - dt }, decide (0 < e.timer - dt))

/-- A `FloatingText` sprite (score and power-up indicators). -/
structure FloatingText where
  pos : Vec
  text : String
  color : Color
  timer : ℚ
  v : Vec

/-- `FloatingText.__init__`: lifetime 1, drifting upward at 50 units/s. -/
def FloatingText.init (pos : Vec) (text : String) (color : Color) : FloatingText :=
  ⟨pos, text, color, 1, (0, -50)⟩

/-- `FloatingText.update`: drift and count down; dead at timer ≤ 0. -/
def FloatingText.update (f : FloatingText) (dt : ℚ) : FloatingText × Bool :=
  ({ f with timer := f.timer - dt,
            pos := (f.pos.1 + f.v.1 * dt, f.pos.2 + f.v.2 * dt) },
   decide (0 < f.timer - dt))

/-- The three power-up kinds of `PowerUp.TYPES`. -/
inductive PUKind
  | shield
  | rapid
  | heal

/-- A `PowerUp` sprite. -/
structure PowerUp where
  kind : PUKind
  pos : Vec
  timer : ℚ
  rect : Rect
  vel : Vec

/-- `PowerUp.__init__` with `POWERUP_LIFETIME = 10` and `POWERUP_RADIUS = 16`;
the kind (`random.choice`) and initial velocity (`random.uniform`) are
drawn by the caller's oracle. -/
def PowerUp.init (pos : Vec) (kind : PUKind) (vel : Vec) : PowerUp :=
  ⟨kind, pos, 10, (Rect.mk 0 0 32 32).setCenter (pyInt pos.1, pyInt pos.2), vel⟩

/-- `PowerUp.update`: fall with gravity-like acceleration capped at fall
speed 160; dead on lifetime expiry or 50 units below the screen. The
position update uses the velocity before the gravity step, as the source
does. -/
def PowerUp.update (p : PowerUp) (dt : ℚ) : PowerUp × Bool :=
  let timer := p.timer - dt
  let pos : Vec := (p.pos.1 + p.vel.1 * dt, p.pos.2 + p.vel.2 * dt)
  let vel : Vec := (p.vel.1, min (p.vel.2 + 50 * dt) 160)
  ({ p with timer := timer, pos := pos, vel := vel,
            rect := p.rect.setCenter (pyInt pos.1, pyInt pos.2) },
   !(decide (timer ≤ 0) || decide (pos.2 > HEIGHT + 50)))

/-- The enemy collision radius `ENEMY_RADIUS = 18`, as a rational. -/
def ENEMY_RADIUS : ℚ := 18

/-- An `Enemy` sprite. -/
structure Enemy where
  pos : Vec
  hp : ℤ
  speed : ℚ
  rect : Rect
  shoot_t : Timer

/-- `Enemy.__init__` with `ENEMY_HP = 2`; the speed (uniform in [110, 220])
and the first shot delay (uniform in [0.8, 1.6]) are drawn by the caller's
oracle. -/
def Enemy.init (pos : Vec) (speed shoot0 : ℚ) : Enemy :=
  ⟨pos, 2, speed, (Rect.mk 0 0 36 36).setCenter (pyInt pos.1, pyInt pos.2), ⟨shoot0⟩⟩

/-- `Enemy.update`: descend, recenter the rect, advance the shot timer and
fire a hostile bullet when it is ready (resetting it to `shootReset`, the
oracle's draw from [1.1, 2.0]); dead once 40 units below the screen.
Returns the enemy, the bullets it fired, and whether it survived. -/
def Enemy.update (e : Enemy) (dt : ℚ) (shootReset : ℚ) :
    Enemy × List Bullet × Bool :=
  let pos : Vec := (e.pos.1, e.pos.2 + e.speed * dt)
  let rect := e.rect.setCenter (pyInt pos.1, pyInt pos.2)
  let st := e.shoot_t.update dt
  let fired : List Bullet :=
    if st.ready then
      [Bullet.init (pos.1, pos.2 + ENEMY_RADIUS) (0, 320) false 1 Color.red 5]
    else []
  let st2 := if st.ready then Timer.set st shootReset else st
  ({ e with pos := pos, rect := rect, shoot_t := st2 }, fired,
   decide (pos.2 ≤ HEIGHT + 40))

/-- The boss phases: `"enter"` and `"fight"` (the defeated phase is the
removal of the sprite itself). -/
inductive BossState
  | enter
  | fight

/-- The `Boss` sprite, with `BOSS_HP = 120` and `BOSS_RADIUS = 80`. -/
structure Boss where
  pos : Vec
  rect : Rect
  hp : ℤ
  state : BossState
  cool : Timer
  target_x : ℚ

/-- `Boss.__init__`: centered horizontally, 120 units above the screen,
cooldown `BOSS_COOLDOWN = 0.9`, target the center. -/
def Boss.init : Boss :=
  ⟨(450, -120), Rect.mk 0 0 160 160, 120, BossState.enter, ⟨0.9⟩, 450⟩

/-- `math.copysign(1, x)` for a rational (Python's float zero is positive). -/
def copysign1 (x : ℚ) : ℚ := if x < 0 then -1 else 1

/-- `Boss.update`. In `enter` it descends at 100 units/s and switches to
`fight` at y ≥ 200. In `fight` it resamples its horizontal target (the
oracle's `newTarget`, uniform in [120, 780]) when within 10 units of it,
sways toward the target at `BOSS_SPEED = 120`, and on attack-cooldown
ready resets the cooldown and emits a radial burst of 14 hostile bullets;
the burst velocity of bullet `i` — `(cos ang, sin ang) * 260` with the
jittered angle, transcendental and hence not a rational computation — is
the oracle's `burstVel i`. In either state, the rect is recentered and, if
hit points are ≤ 0, the boss dies emitting 8 explosions at the oracle's
jittered offsets. Returns the boss, fired bullets, emitted explosions, and
whether it survived. -/
def Boss.update (b : Boss) (dt : ℚ) (newTarget : ℚ) (burstVel : ℕ → Vec)
    (fxOff : ℕ → Vec) : Boss × List Bullet × List Explosion × Bool :=
  let b1 :=
    match b.state with
    | BossState.enter =>
        let pos : Vec := (b.pos.1, b.pos.2 + 100 * dt)
        { b with pos := pos,
                 state := if pos.2 ≥ 200 then BossState.fight else BossState.enter }
    | BossState.fight =>
        let tx := if |b.pos.1 - b.target_x| < 10 then newTarget else b.target_x
        let dx := copysign1 (tx - b.pos.1)
        let pos : Vec := (b.pos.1 + dx * 120 * dt, b.pos.2)
        let cool := b.cool.update dt
        { b with pos := pos, target_x := tx,
                 cool := if cool.ready then Timer.set cool 0.9 else cool }
  let shots : List Bullet :=
    match b.state with
    | BossState.enter => []
    | BossState.fight =>
        if (b.cool.update dt).ready then
          (List.range 14).map fun i =>
            Bullet.init b1.pos (burstVel i) false 1 Color.orange 6
        else []
  let b2 := { b1 with rect := b1.rect.setCenter (pyInt b1.pos.1, pyInt b1.pos.2) }
  if b2.hp ≤ 0 then
    (b2, shots,
     (List.range 8).map (fun i => Explosion.init (Vec.add b2.pos (fxOff i)) Color.orange 0.35),
     false)
  else (b2, shots, [], true)

/-- The `Player` sprite, with `PLAYER_MAX_HP = 5`. -/
structure Player where
  pos : Vec
  vel : Vec
  rect : Rect
  hp : ℤ
  invuln : ℚ
  fire_t : Timer
  rapid_timer : ℚ
  shield_timer : ℚ
  score : ℤ

/-- `Player.__init__`: centered, 140 units above the bottom, full health. -/
def Player.init : Player :=
  ⟨(450, 1060), (0, 0), (Rect.mk 0 0 44 44).setCenter (450, 1060), 5, 0, ⟨0⟩, 0, 0, 0⟩

/-- The input snapshot the simulation consumes each tick: the directional
keys (arrow/WASD pairs merged), the shift precision modifier, and whether
the fire control (space or left mouse button) is held. -/
structure Pressed where
  left : Bool
  right : Bool
  up : Bool
  down : Bool
  slow : Bool
  fire : Bool

/-- `Player.update`: movement from the input snapshot (slow speed 260 with
shift, else 480), normalized via the oracle's square root `sq` when the
direction is nonzero, position clamped to x ∈ [40, 860] and y ∈ [150, 1160],
rect recentered, and the four timers decremented (floored at 0). -/
def Player.update (p : Player) (dt : ℚ) (k : Pressed) (sq : ℚ → ℚ) : Player :=
  let speed : ℚ := if k.slow then 260 else 480
  let v0 : Vec := ((if k.left then -1 else 0) + (if k.right then 1 else 0),
                   (if k.up then -1 else 0) + (if k.down then 1 else 0))
  let len2 := v0.1 * v0.1 + v0.2 * v0.2
  let v : Vec :=
    if 0 < len2 then Vec.smul (v0.1 / sq len2, v0.2 / sq len2) speed else v0
  let pos : Vec := (max 40 (min (WIDTH - 40) (p.pos.1 + v.1 * dt)),
                    max 150 (min (HEIGHT - 40) (p.pos.2 + v.2 * dt)))
  { p with pos := pos, vel := v,
           rect := p.rect.setCenter (pyInt pos.1, pyInt pos.2),
           fire_t := p.fire_t.update dt,
           invuln := max 0 (p.invuln - dt),
           rapid_timer := max 0 (p.rapid_timer - dt),
           shield_timer := max 0 (p.shield_timer - dt) }

/-- `Player.try_fire`: when the fire cooldown is ready, reset it to
`PLAYER_FIRE_COOLDOWN = 0.16` (scaled by 0.45 while rapid fire is active)
and emit the triple shot: offsets −14, 0, 14, each bullet friendly with
damage 1, velocity `(dx * 8, -900)`. Otherwise do nothing. -/
def Player.try_fire (p : Player) : Player × List Bullet :=
  if p.fire_t.ready then
    let cd : ℚ := 0.16 * (if 0 < p.rapid_timer then 0.45 else 1)
    ({ p with fire_t := Timer.set p.fire_t cd },
     ([-14, 0, 14] : List ℚ).map fun dx =>
       Bullet.init (p.pos.1 + dx, p.pos.2 - 22) (dx * 8, -900) true 1 Color.yellow 5)
  else (p, [])

/-- The oracle supplying, for one tick, every draw of the `random` module
and every transcendental real computation of the source (which a rational
embedding cannot evaluate): `sq` models `math.sqrt` (used by
`Vector2.normalize`), `spawnX` is `random.randrange(40, WIDTH - 40)`,
`enemySpeed` and `enemyShoot0` the new enemy's samples, `shootReset i` the
shot-timer resample of the `i`-th enemy, `bossTarget` the boss's target
resample, `burstVel i` the (jittered, cos/sin) velocity of burst bullet
`i`, `bossFxOff`/`playerFxOff` the jittered explosion offsets, and
`dropRoll k` / `puKind k` / `puVel k` the `k`-th enemy-kill drop roll and
the dropped power-up's kind and velocity. -/
structure Oracle where
  sq : ℚ → ℚ
  spawnX : ℤ
  enemySpeed : ℚ
  enemyShoot0 : ℚ
  shootReset : ℕ → ℚ
  bossTarget : ℚ
  burstVel : ℕ → Vec
  bossFxOff : ℕ → Vec
  playerFxOff : ℕ → Vec
  dropRoll : ℕ → ℚ
  puKind : ℕ → PUKind
  puVel : ℕ → Vec

/-- The full simulation state of `Game` (`reset` fields): the sprite
groups are insertion-ordered lists, the boss `GroupSingle` an `Option`.
The starfield and the pygame handles are rendering-only and omitted. -/
structure Game where
  player : Player
  all_bullets : List Bullet
  enemy_bullets : List Bullet
  enemies : List Enemy
  powerups : List PowerUp
  effects : List Explosion
  floaters : List FloatingText
  boss : Option Boss
  spawn_t : Timer
  time : ℚ
  running : Bool
  paused : Bool
  game_over : Bool
  shake : CameraShake

/-- `Game.reset`: the initial state (spawn timer 1 second, time 0). -/
def Game.reset : Game :=
  { player := Player.init, all_bullets := [], enemy_bullets := [], enemies := [],
    powerups := [], effects := [], floaters := [], boss := none,
    spawn_t := ⟨1⟩, time := 0, running := true, paused := false,
    game_over := false, shake := ⟨0⟩ }

/-- Lines 370-375 of `Game.update`: update the player from the pressed
snapshot, then auto-fire while the fire control is held. -/
def playerPhase (g : Game) (dt : ℚ) (k : Pressed) (sq : ℚ → ℚ) : Game :=
  let p := g.player.update dt k sq
  let r := if k.fire then p.try_fire else (p, [])
  { g with player := r.1, all_bullets := g.all_bullets ++ r.2 }

/-- Lines 377-380 of `Game.update`: advance the session clock, the spawn
cooldown and the camera-shake decay. -/
def timersPhase (g : Game) (dt : ℚ) : Game :=
  { g with time := g.time + dt, spawn_t := g.spawn_t.update dt,
           shake := g.shake.update }

/-- Lines 387-391 of `Game.update`: when the spawn cooldown fires, reset
it to `spawnInterval` of the elapsed time and spawn one enemy just above
the screen at the oracle's horizontal position. -/
def spawnPhase (g : Game) (o : Oracle) : Game :=
  if g.spawn_t.ready then
    { g with spawn_t := Timer.set g.spawn_t (spawnInterval g.time),
             enemies := g.enemies ++
               [Enemy.init ((o.spawnX : ℚ), -40) o.enemySpeed o.enemyShoot0] }
  else g

/-- Lines 393-396 of `Game.update`: the boss gate — once the elapsed time
exceeds 50 and no boss is alive, spawn one as soon as the score exceeds
400 or the elapsed time exceeds 65. -/
def bossGatePhase (g : Game) : Game :=
  if g.time > 50 ∧ g.boss.isNone then
    if g.player.score > 400 ∨ g.time > 65 then { g with boss := some Boss.init }
    else g
  else g

/-- Lines 398-415 of `Game.update`: the per-category entity updates.
Friendly bullets are updated and any non-friendly bullet found in
`all_bullets` is moved to `enemy_bullets` (an out-of-bounds kill of such a
bullet is undone by the unconditional re-`add`, exactly as in the source);
the whole `enemy_bullets` group — including the just-moved ones, which are
thereby stepped twice — is then updated; enemies are updated (emitting
their shots into `enemy_bullets` after the group update, so those shots
are not stepped this tick), then power-ups, effects, floaters, and the
boss, whose shots and death explosions are appended. -/
def groupsPhase (g : Game) (dt : ℚ) (o : Oracle) : Game :=
  let stepped := g.all_bullets.map (fun b => b.update dt)
  let all1 := (stepped.filter (fun s => s.1.friendly && s.2)).map Prod.fst
  let moved := (stepped.filter (fun s => !s.1.friendly)).map Prod.fst
  let eb1 := (g.enemy_bullets ++ moved).map (fun b => b.update dt)
  let eb2 := (eb1.filter Prod.snd).map Prod.fst
  let eres := g.enemies.enum.map (fun ie => ie.2.update dt (o.shootReset ie.1))
  let enemies2 := (eres.filter (fun r => r.2.2)).map Prod.fst
  let eb3 := eb2 ++ (eres.map (fun r => r.2.1)).flatten
  let pu2 := ((g.powerups.map (fun p => p.update dt)).filter Prod.snd).map Prod.fst
  let fx2 := ((g.effects.map (fun e => e.update dt)).filter Prod.snd).map Prod.fst
  let fl2 := ((g.floaters.map (fun f => f.update dt)).filter Prod.snd).map Prod.fst
  match g.boss with
  | none =>
      { g with all_bullets := all1, enemy_bullets := eb3, enemies := enemies2,
               powerups := pu2, effects := fx2, floaters := fl2 }
  | some b =>
      let r := b.update dt o.bossTarget o.burstVel o.bossFxOff
      { g with all_bullets := all1, enemy_bullets := eb3 ++ r.2.1,
               enemies := enemies2, powerups := pu2, effects := fx2 ++ r.2.2.1,
               floaters := fl2, boss := if r.2.2.2 then some r.1 else none }

/-- The body of the inner loop of lines 426-437: one enemy of the snapshot
`hit_list` of a friendly bullet `b`. The accumulator threads the game (its
`enemies` being rebuilt in order) and the kill-event counter indexing the
oracle's drop draws. An overlapped enemy takes `b.dmg` damage and yields a
hit explosion; if its hit points drop to ≤ 0 it is not kept, the score
rises by 10, a "+10" floater and a shake bump 5 are emitted, and with
`dropRoll < 0.1` a power-up appears at its position. -/
def enemyHitStep (b : Bullet) (o : Oracle) (acc : Game × ℕ) (e : Enemy) :
    Game × ℕ :=
  let g := acc.1
  let k := acc.2
  if e.rect.collidepoint b.rect.center then
    let e2 : Enemy := { e with hp := e.hp - b.dmg }
    let g1 := { g with effects := g.effects ++ [Explosion.init b.pos Color.orange 0.2] }
    if e2.hp ≤ 0 then
      let g2 := { g1 with
        player := { g1.player with score := g1.player.score + 10 },
        floaters := g1.floaters ++ [FloatingText.init e.pos "+10" Color.yellow],
        shake := g1.shake.bump 5 }
      if o.dropRoll k < 0.1 then
        ({ g2 with powerups := g2.powerups ++ [PowerUp.init e.pos (o.puKind k) (o.puVel k)] },
         k + 1)
      else (g2, k + 1)
    else ({ g1 with enemies := g1.enemies ++ [e2] }, k)
  else ({ g with enemies := g.enemies ++ [e] }, k)

/-- The enemy branch of lines 419 and 426-437 for one friendly bullet:
when its snapshot `hit_list` is empty the bullet survives (it is appended
to `kept`); otherwise every overlapped enemy is processed by
`enemyHitStep` and the bullet is destroyed (processed exactly once, after
the whole set). -/
def enemyBranch (o : Oracle) (g : Game) (k : ℕ) (kept : List Bullet)
    (b : Bullet) : Game × ℕ × List Bullet :=
  if (g.enemies.filter (fun e => e.rect.collidepoint b.rect.center)).isEmpty then
    (g, k, kept ++ [b])
  else
    let r := g.enemies.foldl (enemyHitStep b o) ({ g with enemies := [] }, k)
    (r.1, r.2, kept)

/-- Lines 418-437 of `Game.update` for one bullet of `all_bullets`: the
non-friendly are not in the iterated snapshot and survive untouched; a
friendly bullet is tested against the boss first — on overlap the boss
takes its damage, a yellow hit explosion and +2 score are emitted, the
shake bumps by 1.2, and the bullet is destroyed, `continue` skipping the
enemy tests — and otherwise against its `hit_list` of enemies. -/
def friendlyBulletStep (o : Oracle) (acc : Game × ℕ × List Bullet)
    (b : Bullet) : Game × ℕ × List Bullet :=
  let g := acc.1
  let k := acc.2.1
  let kept := acc.2.2
  if b.friendly then
    match g.boss with
    | some bo =>
        if bo.rect.collidepoint b.rect.center then
          ({ g with boss := some { bo with hp := bo.hp - b.dmg },
                    effects := g.effects ++ [Explosion.init b.pos Color.yellow 0.2],
                    player := { g.player with score := g.player.score + 2 },
                    shake := g.shake.bump 1.2 },
           k, kept)
        else enemyBranch o g k kept b
    | none => enemyBranch o g k kept b
  else (g, k, kept ++ [b])

/-- Lines 417-437 of `Game.update`: resolve every friendly bullet in group
order; the bullets that survive their own resolution are what remains of
`all_bullets`. -/
def friendlyHitPhase (g : Game) (o : Oracle) : Game :=
  let r := g.all_bullets.foldl (friendlyBulletStep o) (g, 0, [])
  { r.1 with all_bullets := r.2.2 }

/-- The scan of lines 441-453: the first hostile bullet whose rect covers
the player's center is resolved — shield time, when positive, absorbs the
hit (−0.35, floored at 0) with no hit-point loss, otherwise one hit point
is lost; a red explosion is emitted, the shake bumps by 7 on a hit-point
loss and 3 otherwise, invulnerability is set to 0.5, the bullet is
destroyed and the scan stops. Bullets already scanned are in `seen`. -/
def hostileScan (g : Game) : List Bullet → List Bullet → Game
  | [], seen => { g with enemy_bullets := seen }
  | eb :: rest, seen =>
      if g.player.rect.collidepoint eb.rect.center then
        let p1 :=
          if 0 < g.player.shield_timer then
            { g.player with shield_timer := max 0 (g.player.shield_timer - 0.35) }
          else { g.player with hp := g.player.hp - 1 }
        { g with player := { p1 with invuln := 0.5 },
                 effects := g.effects ++ [Explosion.init eb.pos Color.red 0.25],
                 shake := g.shake.bump (if 0 < g.player.shield_timer then 3 else 7),
                 enemy_bullets := seen ++ rest }
      else hostileScan g rest (seen ++ [eb])

/-- Lines 439-453 of `Game.update`: hostile bullets are tested against the
player only while invulnerability is ≤ 0, and at most the first overlap is
processed. -/
def hostileHitPhase (g : Game) : Game :=
  if g.player.invuln ≤ 0 then hostileScan g g.enemy_bullets [] else g

/-- The body of lines 456-464 for one ramming enemy: shield time, when
positive, absorbs the ram (−1.0, floored at 0), otherwise one hit point is
lost; an explosion is emitted, the shake bumps by 9 and invulnerability is
set to 0.6 — the ram is applied whether or not the player was already
invulnerable. -/
def ramHit (g : Game) (e : Enemy) : Game :=
  let p1 :=
    if 0 < g.player.shield_timer then
      { g.player with shield_timer := max 0 (g.player.shield_timer - 1) }
    else { g.player with hp := g.player.hp - 1 }
  { g with player := { p1 with invuln := 0.6 },
           effects := g.effects ++ [Explosion.init e.pos Color.orange 0.35],
           shake := g.shake.bump 9 }

/-- Lines 455-464 of `Game.update`: every enemy whose rect overlaps the
player's is destroyed and rams independently. -/
def ramPhase (g : Game) : Game :=
  let rams := g.enemies.filter (fun e => g.player.rect.colliderect e.rect)
  let keep := g.enemies.filter (fun e => !(g.player.rect.colliderect e.rect))
  rams.foldl ramHit { g with enemies := keep }

/-- The body of lines 467-478 for one collected power-up: `shield` adds 6
seconds of shield, `rapid` 6 seconds of rapid fire, `heal` restores 2 hit
points capped at `PLAYER_MAX_HP = 5`; each emits its floater and bumps the
shake by 4. -/
def pickupHit (g : Game) (p : PowerUp) : Game :=
  let g1 :=
    match p.kind with
    | PUKind.shield =>
        { g with player := { g.player with shield_timer := g.player.shield_timer + 6 },
                 floaters := g.floaters ++ [FloatingText.init g.player.pos "SHIELD" Color.cyan] }
    | PUKind.rapid =>
        { g with player := { g.player with rapid_timer := g.player.rapid_timer + 6 },
                 floaters := g.floaters ++ [FloatingText.init g.player.pos "RAPID FIRE" Color.purple] }
    | PUKind.heal =>
        { g with player := { g.player with hp := min 5 (g.player.hp + 2) },
                 floaters := g.floaters ++ [FloatingText.init g.player.pos "+2 HP" Color.green] }
  { g1 with shake := g1.shake.bump 4 }

/-- Lines 466-478 of `Game.update`: every power-up whose rect overlaps the
player's is consumed. -/
def pickupPhase (g : Game) : Game :=
  let picked := g.powerups.filter (fun p => g.player.rect.colliderect p.rect)
  let keep := g.powerups.filter (fun p => !(g.player.rect.colliderect p.rect))
  picked.foldl pickupHit { g with powerups := keep }

/-- Lines 480-483 of `Game.update`: when the player's hit points are ≤ 0
after resolution, the game enters the terminal state and 10 explosions
burst at jittered offsets around the player. -/
def gameOverPhase (g : Game) (o : Oracle) : Game :=
  if g.player.hp ≤ 0 then
    { g with game_over := true,
             effects := g.effects ++ (List.range 10).map
               (fun i => Explosion.init (Vec.add g.player.pos (o.playerFxOff i)) Color.orange 0.35) }
  else g

/-- The boss gate, entity updates and collision resolution as one block:
everything in `Game.update` between the spawn phase and the terminal
check. -/
def afterSpawn (g : Game) (dt : ℚ) (o : Oracle) : Game :=
  pickupPhase (ramPhase (hostileHitPhase (friendlyHitPhase
    (groupsPhase (bossGatePhase g) dt o) o)))

/-- `Game.update` (lines 367-483): a no-op in the terminal state, else the
phases in source order. -/
def Game.update (g : Game) (dt : ℚ) (k : Pressed) (o : Oracle) : Game :=
  if g.game_over then g
  else
    gameOverPhase
      (pickupPhase (ramPhase (hostileHitPhase (friendlyHitPhase
        (groupsPhase (bossGatePhase (spawnPhase (timersPhase
          (playerPhase g dt k o.sq) dt) o)) dt o) o))))
      o

/-- The events the simulation reacts to: quit, the escape, pause and fire
keys, a left mouse press, and any other key. -/
inductive Ev
  | quit
  | keyEsc
  | keyP
  | keySpace
  | mouseLeft
  | keyOther

/-- One event of `Game.events` (lines 351-365): quit/escape stop the loop;
`P` toggles pause unless the game is over; space or a left mouse press
calls `try_fire` unless the game is over — note the source does not guard
these on `paused`. -/
def eventStep (g : Game) (e : Ev) : Game :=
  match e with
  | Ev.quit => { g with running := false }
  | Ev.keyEsc => { g with running := false }
  | Ev.keyP => if g.game_over then g else { g with paused := !g.paused }
  | Ev.keySpace =>
      if g.game_over then g
      else
        let r := g.player.try_fire
        { g with player := r.1, all_bullets := g.all_bullets ++ r.2 }
  | Ev.mouseLeft =>
      if g.game_over then g
      else
        let r := g.player.try_fire
        { g with player := r.1, all_bullets := g.all_bullets ++ r.2 }
  | Ev.keyOther => g

/-- `Game.events`: process the tick's event queue in order. -/
def Game.events (g : Game) (evs : List Ev) : Game := evs.foldl eventStep g

/-- One iteration of `Game.run` (lines 341-347), minus the rendering call:
handle the event queue, then advance the simulation unless paused. -/
def Game.frame (g : Game) (evs : List Ev) (dt : ℚ) (k : Pressed) (o : Oracle) : Game :=
  let g1 := g.events evs
  if g1.paused then g1 else g1.update dt k o

/-! Spec-side characterizations (from the wording of §4.5 of the design),
stated independently of the source's fold so the collision theorems can
compare the two. -/

/-- The overlap test of §4.5 steps 1-2: the bullet's sampling point (its
rect center) lies in the enemy's bounding region. -/
def specOverlap (b : Bullet) (e : Enemy) : Bool := e.rect.collidepoint b.rect.center

/-- Spec-side (§4.5 step 2): after one friendly bullet is resolved, every
overlapped enemy has taken the bullet's damage and those at ≤ 0 hit points
are gone; the others are untouched, in order. -/
def specEnemiesAfterHit (b : Bullet) : List Enemy → List Enemy
  | [] => []
  | e :: es =>
      if specOverlap b e then
        (if e.hp - b.dmg ≤ 0 then [] else [{ e with hp := e.hp - b.dmg }]) ++
          specEnemiesAfterHit b es
      else e :: specEnemiesAfterHit b es

/-- Spec-side (§4.5 step 2): the enemies of the bullet's hit set, in
order. -/
def specHits (b : Bullet) : List Enemy → List Enemy
  | [] => []
  | e :: es => (if specOverlap b e then [e] else []) ++ specHits b es

/-- Spec-side (§4.5 step 2): the overlapped enemies the bullet's damage
brings to ≤ 0 hit points, in order. -/
def specKilled (b : Bullet) : List Enemy → List Enemy
  | [] => []
  | e :: es =>
      (if specOverlap b e ∧ e.hp - b.dmg ≤ 0 then [e] else []) ++ specKilled b es

/-- Spec-side (§4.5 step 2): the power-ups dropped for a run of killed
enemies, consuming one drop roll per kill starting at index `k`; a drop
happens exactly on a roll < 0.1. -/
def specDrops (o : Oracle) : ℕ → List Enemy → List PowerUp
  | _, [] => []
  | k, e :: es =>
      (if o.dropRoll k < 0.1 then [PowerUp.init e.pos (o.puKind k) (o.puVel k)] else []) ++
        specDrops o (k + 1) es

/-! Concrete states for the witnesses and counterexamples. -/

/-- A fixed oracle: square root identically 0, spawn at the center, slow
timers, drop rolls of 1 (never below the 0.1 drop chance). -/
def o0 : Oracle :=
  ⟨fun _ => 0, 450, 0, 9, fun _ => 9, 450, fun _ => (0, 0), fun _ => (0, 0),
   fun _ => (0, 0), fun _ => 1, fun _ => PUKind.heal, fun _ => (0, 0)⟩

/-- The empty input snapshot: no key held. -/
def pressed0 : Pressed := ⟨false, false, false, false, false, false⟩

/-- A freshly reset game that has been paused. -/
def pausedG : Game := { Game.reset with paused := true }

/-- An enemy sitting exactly on the initial player position, motionless,
with its shot timer far from ready. -/
def ramEnemy : Enemy := Enemy.init (450, 1060) 0 9

/-- A game one tick from disaster: the player at 1 hit point with no
shield and two enemies overlapping it, the spawn timer not ready. -/
def doomedG : Game :=
  { Game.reset with player := { Player.init with hp := 1 },
                    enemies := [ramEnemy, ramEnemy], spawn_t := ⟨5⟩ }

/-- A hostile bullet whose rect covers the initial player center. -/
def hostileB : Bullet :=
  { Bullet.init (450, 1060) (0, 0) false 1 Color.red 5 with
    rect := ⟨445, 1055, 10, 10⟩ }

/-- A game with a sliver of shield (0.2 s) about to absorb `hostileB`. -/
def shieldG : Game :=
  { Game.reset with player := { Player.init with shield_timer := 1/5 },
                    enemy_bullets := [hostileB] }

/-- A game with an invulnerable (0.7 s) shieldless player and two ramming
enemies. -/
def invulnG : Game :=
  { Game.reset with player := { Player.init with invuln := 7/10 },
                    enemies := [ramEnemy, ramEnemy] }

/-- A friendly bullet at the origin; its rect center (5, 5) lies inside
the just-constructed boss rect and inside `hitEnemy`'s rect. -/
def originB : Bullet := Bullet.init (0, 0) (0, 0) true 1 Color.yellow 5

/-- A friendly bullet like `originB` but with damage 2, enough to kill a
fresh enemy outright. -/
def strongB : Bullet := Bullet.init (0, 0) (0, 0) true 2 Color.yellow 5

/-- An enemy whose rect contains the point (5, 5). -/
def hitEnemy : Enemy := Enemy.init (5, 5) 0 9

/-- A game with a boss on screen, used for the boss-priority witness. -/
def bossG : Game := { Game.reset with boss := some Boss.init }

/-- A game with three enemies stacked on the point (5, 5) and no boss. -/
def tripleG : Game := { Game.reset with enemies := [hitEnemy, hitEnemy, hitEnemy] }

/-- A game 66 time-units in with no boss yet. -/
def lateG : Game := { Game.reset with time := 66 }

/-- A game 40 time-units in whose spawn cooldown is about to fire. -/
def earlyG : Game := { Game.reset with time := 40, spawn_t := ⟨0⟩ }

/-- The bookkeeping fields no collision phase touches: two game states
agreeing on the spawn cooldown, the session clock, and the three loop
flags. -/
def framePres (g g' : Game) : Prop :=
  g'.spawn_t = g.spawn_t ∧ g'.time = g.time ∧ g'.game_over = g.game_over ∧
    g'.running = g.running ∧ g'.paused = g.paused

/-! Helper lemmas: fold invariants and what each phase leaves untouched. -/

theorem foldlProj {α β γ : Type _} (f : β → α → β) (pr : β → γ)
    (h : ∀ b a, pr (f b a) = pr b) :
    ∀ (l : List α) (b : β), pr (l.foldl f b) = pr b := by
  intro l
  induction l with
  | nil => intro b; rfl
  | cons x xs ih => intro b; rw [List.foldl_cons, ih, h]

theorem foldlInv {α β : Type _} (f : β → α → β) (P : β → Prop)
    (h : ∀ b a, P b → P (f b a)) :
    ∀ (l : List α) (b : β), P b → P (l.foldl f b) := by
  intro l
  induction l with
  | nil => intro b hb; exact hb
  | cons x xs ih => intro b hb; exact ih (f b x) (h b x hb)

theorem framePres_self (g : Game) : framePres g g := ⟨rfl, rfl, rfl, rfl, rfl⟩

theorem framePres_trans {a b c : Game} (h1 : framePres a b) (h2 : framePres b c) :
    framePres a c :=
  ⟨h2.1.trans h1.1, h2.2.1.trans h1.2.1, h2.2.2.1.trans h1.2.2.1,
   h2.2.2.2.1.trans h1.2.2.2.1, h2.2.2.2.2.trans h1.2.2.2.2⟩

theorem foldlFrame {α β : Type _} (f : β → α → β) (p : β → Game)
    (h : ∀ b a, framePres (p b) (p (f b a))) :
    ∀ (l : List α) (b : β), framePres (p b) (p (l.foldl f b)) := by
  intro l
  induction l with
  | nil => intro b; exact framePres_self _
  | cons x xs ih => intro b; exact framePres_trans (h b x) (ih (f b x))

theorem enemyHitStep_frame (b : Bullet) (o : Oracle) (acc : Game × ℕ) (e : Enemy) :
    framePres acc.1 (enemyHitStep b o acc e).1 := by
  unfold enemyHitStep
  dsimp only
  split_ifs <;> exact ⟨rfl, rfl, rfl, rfl, rfl⟩

theorem enemyBranch_frame (o : Oracle) (g : Game) (k : ℕ) (kept : List Bullet)
    (b : Bullet) : framePres g (enemyBranch o g k kept b).1 := by
  unfold enemyBranch
  split_ifs with h
  · exact framePres_self g
  · exact framePres_trans
      (⟨rfl, rfl, rfl, rfl, rfl⟩ : framePres g { g with enemies := [] })
      (foldlFrame (enemyHitStep b o) (fun acc => acc.1)
        (fun acc e => enemyHitStep_frame b o acc e) g.enemies ({ g with enemies := [] }, k))

theorem friendlyBulletStep_frame (o : Oracle) (acc : Game × ℕ × List Bullet)
    (b : Bullet) : framePres acc.1 (friendlyBulletStep o acc b).1 := by
  unfold friendlyBulletStep
  dsimp only
  split_ifs with hf
  · cases h : acc.1.boss with
    | none => exact enemyBranch_frame o acc.1 acc.2.1 acc.2.2 b
    | some bo =>
        dsimp only
        split_ifs
        · exact ⟨rfl, rfl, rfl, rfl, rfl⟩
        · exact enemyBranch_frame o acc.1 acc.2.1 acc.2.2 b
  · exact framePres_self _

theorem friendlyHitPhase_frame (g : Game) (o : Oracle) :
    framePres g (friendlyHitPhase g o) := by
  unfold friendlyHitPhase
  dsimp only
  have h := foldlFrame (friendlyBulletStep o) (fun acc => acc.1)
    (fun acc b => friendlyBulletStep_frame o acc b) g.all_bullets (g, 0, [])
  exact ⟨h.1, h.2.1, h.2.2.1, h.2.2.2.1, h.2.2.2.2⟩

theorem hostileScan_frame (g : Game) :
    ∀ (l seen : List Bullet), framePres g (hostileScan g l seen) := by
  intro l
  induction l with
  | nil => intro seen; exact ⟨rfl, rfl, rfl, rfl, rfl⟩
  | cons eb rest ih =>
      intro seen
      unfold hostileScan
      dsimp only
      split_ifs
      · exact ⟨rfl, rfl, rfl, rfl, rfl⟩
      · exact ⟨rfl, rfl, rfl, rfl, rfl⟩
      · exact ih (seen ++ [eb])

theorem hostileHitPhase_frame (g : Game) : framePres g (hostileHitPhase g) := by
  unfold hostileHitPhase
  split_ifs
  · exact hostileScan_frame g g.enemy_bullets []
  · exact framePres_self g

theorem ramHit_frame (g : Game) (e : Enemy) : framePres g (ramHit g e) := by
  unfold ramHit
  dsimp only
  split_ifs <;> exact ⟨rfl, rfl, rfl, rfl, rfl⟩

theorem ramPhase_frame (g : Game) : framePres g (ramPhase g) := by
  unfold ramPhase
  dsimp only
  exact framePres_trans
    (⟨rfl, rfl, rfl, rfl, rfl⟩ : framePres g _)
    (foldlFrame ramHit id (fun a e => ramHit_frame a e) _ _)

theorem pickupHit_frame (g : Game) (p : PowerUp) : framePres g (pickupHit g p) := by
  unfold pickupHit
  cases p.kind <;> exact ⟨rfl, rfl, rfl, rfl, rfl⟩

theorem pickupPhase_frame (g : Game) : framePres g (pickupPhase g) := by
  unfold pickupPhase
  dsimp only
  exact framePres_trans
    (⟨rfl, rfl, rfl, rfl, rfl⟩ : framePres g _)
    (foldlFrame pickupHit id (fun a p => pickupHit_frame a p) _ _)

theorem bossGatePhase_frame (g : Game) : framePres g (bossGatePhase g) := by
  unfold bossGatePhase
  split_ifs <;> exact ⟨rfl, rfl, rfl, rfl, rfl⟩

theorem groupsPhase_frame (g : Game) (dt : ℚ) (o : Oracle) :
    framePres g (groupsPhase g dt o) := by
  unfold groupsPhase
  dsimp only
  cases hb : g.boss <;> exact ⟨rfl, rfl, rfl, rfl, rfl⟩

theorem playerPhase_frame (g : Game) (dt : ℚ) (k : Pressed) (sq : ℚ → ℚ) :
    framePres g (playerPhase g dt k sq) := ⟨rfl, rfl, rfl, rfl, rfl⟩

theorem afterSpawn_frame (g : Game) (dt : ℚ) (o : Oracle) :
    framePres g (afterSpawn g dt o) :=
  framePres_trans (bossGatePhase_frame g)
    (framePres_trans (groupsPhase_frame _ dt o)
      (framePres_trans (friendlyHitPhase_frame _ o)
        (framePres_trans (hostileHitPhase_frame _)
          (framePres_trans (ramPhase_frame _) (pickupPhase_frame _)))))

theorem gameOverPhase_player (g : Game) (o : Oracle) :
    (gameOverPhase g o).player = g.player := by
  unfold gameOverPhase
  split_ifs <;> rfl

theorem gameOverPhase_spawn_t (g : Game) (o : Oracle) :
    (gameOverPhase g o).spawn_t = g.spawn_t := by
  unfold gameOverPhase
  split_ifs <;> rfl

theorem gameOverPhase_boss (g : Game) (o : Oracle) :
    (gameOverPhase g o).boss = g.boss := by
  unfold gameOverPhase
  split_ifs <;> rfl

theorem gameOverPhase_go (g : Game) (o : Oracle) (h : g.game_over = false) :
    (gameOverPhase g o).game_over = true ↔ g.player.hp ≤ 0 := by
  unfold gameOverPhase
  split_ifs with hhp
  · simp [hhp]
  · simp [h, hhp]

theorem gameOverPhase_fx (g : Game) (o : Oracle) (hhp : g.player.hp ≤ 0) :
    (gameOverPhase g o).effects = g.effects ++ (List.range 10).map
      (fun i => Explosion.init (Vec.add g.player.pos (o.playerFxOff i)) Color.orange 0.35) := by
  unfold gameOverPhase
  rw [if_pos hhp]

theorem updateTerminal (g : Game) (dt : ℚ) (k : Pressed) (o : Oracle)
    (h : g.game_over = true) : Game.update g dt k o = g := by
  unfold Game.update
  rw [if_pos h]

theorem updateActive (g : Game) (dt : ℚ) (k : Pressed) (o : Oracle)
    (h : g.game_over = false) :
    Game.update g dt k o =
      gameOverPhase (afterSpawn (spawnPhase (timersPhase
        (playerPhase g dt k o.sq) dt) o) dt o) o := by
  unfold Game.update afterSpawn
  rw [if_neg (by simp [h])]

theorem tryFire_player_score (p : Player) : p.try_fire.1.score = p.score := by
  unfold Player.try_fire
  dsimp only
  split_ifs <;> rfl

theorem tryFire_player_hp (p : Player) : p.try_fire.1.hp = p.hp := by
  unfold Player.try_fire
  dsimp only
  split_ifs <;> rfl

theorem playerPhase_score (g : Game) (dt : ℚ) (k : Pressed) (sq : ℚ → ℚ) :
    (playerPhase g dt k sq).player.score = g.player.score := by
  unfold playerPhase
  dsimp only
  split_ifs
  · exact tryFire_player_score _
  · rfl

theorem playerPhase_hp (g : Game) (dt : ℚ) (k : Pressed) (sq : ℚ → ℚ) :
    (playerPhase g dt k sq).player.hp = g.player.hp := by
  unfold playerPhase
  dsimp only
  split_ifs
  · exact tryFire_player_hp _
  · rfl

theorem playerPhase_boss (g : Game) (dt : ℚ) (k : Pressed) (sq : ℚ → ℚ) :
    (playerPhase g dt k sq).boss = g.boss := rfl

theorem spawnPhase_boss (g : Game) (o : Oracle) : (spawnPhase g o).boss = g.boss := by
  unfold spawnPhase
  split_ifs <;> rfl

theorem spawnPhase_player (g : Game) (o : Oracle) :
    (spawnPhase g o).player = g.player := by
  unfold spawnPhase
  split_ifs <;> rfl

theorem spawnPhase_time (g : Game) (o : Oracle) : (spawnPhase g o).time = g.time := by
  unfold spawnPhase
  split_ifs <;> rfl

theorem spawnPhase_ready (g : Game) (o : Oracle) (h : g.spawn_t.ready = true) :
    (spawnPhase g o).spawn_t = ⟨spawnInterval g.time⟩ := by
  unfold spawnPhase
  rw [if_pos h]
  rfl

theorem enemyHitStep_boss (b : Bullet) (o : Oracle) (acc : Game × ℕ) (e : Enemy) :
    (enemyHitStep b o acc e).1.boss = acc.1.boss := by
  unfold enemyHitStep
  dsimp only
  split_ifs <;> rfl

theorem enemyBranch_boss (o : Oracle) (g : Game) (k : ℕ) (kept : List Bullet)
    (b : Bullet) : (enemyBranch o g k kept b).1.boss = g.boss := by
  unfold enemyBranch
  dsimp only
  split_ifs
  · rfl
  · exact foldlProj (enemyHitStep b o) (fun acc => acc.1.boss)
      (fun acc e => enemyHitStep_boss b o acc e) g.enemies ({ g with enemies := [] }, k)

theorem friendlyBulletStep_boss_none (o : Oracle) (acc : Game × ℕ × List Bullet)
    (b : Bullet) (h : acc.1.boss = none) :
    (friendlyBulletStep o acc b).1.boss = none := by
  unfold friendlyBulletStep
  dsimp only
  split_ifs
  · rw [h]
    dsimp only
    rw [enemyBranch_boss]
    exact h
  · exact h

theorem friendlyBulletStep_boss_isSome (o : Oracle) (acc : Game × ℕ × List Bullet)
    (b : Bullet) (h : acc.1.boss.isSome = true) :
    (friendlyBulletStep o acc b).1.boss.isSome = true := by
  unfold friendlyBulletStep
  dsimp only
  split_ifs
  · cases hb : acc.1.boss with
    | none => rw [hb] at h; simp at h
    | some bo =>
        dsimp only
        split_ifs
        · rfl
        · rw [enemyBranch_boss, hb]; rfl
  · exact h

theorem friendlyHitPhase_boss_none (g : Game) (o : Oracle) (h : g.boss = none) :
    (friendlyHitPhase g o).boss = none := by
  unfold friendlyHitPhase
  dsimp only
  exact foldlInv (friendlyBulletStep o) (fun acc => acc.1.boss = none)
    (fun acc b hb => friendlyBulletStep_boss_none o acc b hb) g.all_bullets (g, 0, []) h

theorem friendlyHitPhase_boss_isSome (g : Game) (o : Oracle) (h : g.boss.isSome = true) :
    (friendlyHitPhase g o).boss.isSome = true := by
  unfold friendlyHitPhase
  dsimp only
  exact foldlInv (friendlyBulletStep o) (fun acc => acc.1.boss.isSome = true)
    (fun acc b hb => friendlyBulletStep_boss_isSome o acc b hb) g.all_bullets (g, 0, []) h

theorem hostileScan_boss (g : Game) :
    ∀ (l seen : List Bullet), (hostileScan g l seen).boss = g.boss := by
  intro l
  induction l with
  | nil => intro seen; rfl
  | cons eb rest ih =>
      intro seen
      unfold hostileScan
      dsimp only
      split_ifs
      · rfl
      · rfl
      · exact ih (seen ++ [eb])

theorem hostileHitPhase_boss (g : Game) : (hostileHitPhase g).boss = g.boss := by
  unfold hostileHitPhase
  split_ifs
  · exact hostileScan_boss g g.enemy_bullets []
  · rfl

theorem ramHit_boss (g : Game) (e : Enemy) : (ramHit g e).boss = g.boss := rfl

theorem ramPhase_boss (g : Game) : (ramPhase g).boss = g.boss := by
  unfold ramPhase
  dsimp only
  exact foldlProj ramHit (fun a => a.boss) (fun a e => ramHit_boss a e) _ _

theorem pickupHit_boss (g : Game) (p : PowerUp) : (pickupHit g p).boss = g.boss := by
  unfold pickupHit
  cases p.kind <;> rfl

theorem pickupPhase_boss (g : Game) : (pickupPhase g).boss = g.boss := by
  unfold pickupPhase
  dsimp only
  exact foldlProj pickupHit (fun a => a.boss) (fun a p => pickupHit_boss a p) _ _

theorem Boss.update_alive (b : Boss) (dt nt : ℚ) (bv fo : ℕ → Vec) (hhp : 0 < b.hp) :
    (Boss.update b dt nt bv fo).2.2.2 = true := by
  unfold Boss.update
  dsimp only
  cases b.state <;> dsimp only <;> split_ifs <;> first | rfl | omega

theorem groupsPhase_boss_none (g : Game) (dt : ℚ) (o : Oracle) (h : g.boss = none) :
    (groupsPhase g dt o).boss = none := by
  unfold groupsPhase
  dsimp only
  rw [h]

theorem groupsPhase_boss_isSome (g : Game) (dt : ℚ) (o : Oracle) (b : Boss)
    (h : g.boss = some b) (hhp : 0 < b.hp) :
    (groupsPhase g dt o).boss.isSome = true := by
  unfold groupsPhase
  dsimp only
  rw [h]
  dsimp only
  rw [Boss.update_alive b dt o.bossTarget o.burstVel o.bossFxOff hhp]
  rfl

theorem bossGatePhase_spawns (g : Game) (h : g.boss = none)
    (h1 : g.time > 50) (h2 : g.player.score > 400 ∨ g.time > 65) :
    (bossGatePhase g).boss = some Boss.init := by
  unfold bossGatePhase
  rw [if_pos ⟨h1, by simp [h]⟩, if_pos h2]

theorem bossGatePhase_skips (g : Game) (h : g.boss = none)
    (hn : ¬(g.time > 50 ∧ (g.player.score > 400 ∨ g.time > 65))) :
    (bossGatePhase g).boss = none := by
  unfold bossGatePhase
  split_ifs with h1 h2
  · exact absurd ⟨h1.1, h2⟩ hn
  · exact h
  · exact h

theorem scoreCast (s : ℤ) (n : ℕ) : s + 10 + 10 * (n : ℤ) = s + 10 * ((n + 1 : ℕ) : ℤ) := by
  push_cast
  ring

theorem enemyHit_fold (b : Bullet) (o : Oracle) :
    ∀ (es : List Enemy) (g : Game) (k : ℕ),
    es.foldl (enemyHitStep b o) (g, k) =
      ({ g with
          enemies := g.enemies ++ specEnemiesAfterHit b es,
          effects := g.effects ++ (specHits b es).map
            (fun _ => Explosion.init b.pos Color.orange 0.2),
          player := { g.player with
            score := g.player.score + 10 * ((specKilled b es).length : ℤ) },
          floaters := g.floaters ++ (specKilled b es).map
            (fun e => FloatingText.init e.pos "+10" Color.yellow),
          powerups := g.powerups ++ specDrops o k (specKilled b es),
          shake := (specKilled b es).foldl (fun c _ => c.bump 5) g.shake },
       k + (specKilled b es).length) := by
  intro es
  induction es with
  | nil =>
      intro g k
      simp [specEnemiesAfterHit, specHits, specKilled, specDrops]
  | cons e tl ih =>
      intro g k
      rw [List.foldl_cons]
      simp only [enemyHitStep]
      split_ifs with ho hk hd
      · rw [ih]
        simp only [specEnemiesAfterHit, specHits, specKilled, specDrops, specOverlap,
          ho, hk, if_pos, if_true, and_true, List.map_append, List.map_cons,
          List.map_nil, List.foldl_append, List.foldl_cons, List.foldl_nil,
          List.append_assoc, List.length_append, List.length_cons, List.length_nil,
          List.singleton_append, List.nil_append, if_pos hd, Prod.mk.injEq]
        rw [scoreCast]
        exact ⟨rfl, by omega⟩
      · rw [ih]
        simp only [specEnemiesAfterHit, specHits, specKilled, specDrops, specOverlap,
          ho, hk, if_pos, if_true, and_true, List.map_append, List.map_cons,
          List.map_nil, List.foldl_append, List.foldl_cons, List.foldl_nil,
          List.append_assoc, List.length_append, List.length_cons, List.length_nil,
          List.singleton_append, List.nil_append, if_neg hd, Prod.mk.injEq]
        rw [scoreCast]
        exact ⟨rfl, by omega⟩
      · rw [ih]
        simp only [specEnemiesAfterHit, specHits, specKilled, specDrops, specOverlap,
          ho, hk, List.map_append, List.map_cons, List.map_nil, List.foldl_append,
          List.foldl_cons, List.foldl_nil, List.append_assoc, List.length_append,
          List.length_cons, List.length_nil, List.singleton_append, List.nil_append,
          Prod.mk.injEq, and_true, true_and, and_false, false_and, if_true, if_false,
          Nat.zero_add, zero_add]
      · rw [ih]
        simp only [specEnemiesAfterHit, specHits, specKilled, specDrops, specOverlap,
          ho, List.map_append, List.map_cons, List.map_nil, List.foldl_append,
          List.foldl_cons, List.foldl_nil, List.append_assoc, List.length_append,
          List.length_cons, List.length_nil, List.singleton_append, List.nil_append,
          Prod.mk.injEq, List.cons_append, and_true, true_and, and_false, false_and,
          if_true, if_false, Nat.zero_add, zero_add, Bool.false_eq_true]

theorem hostileScan_skip (g : Game) :
    ∀ (pre rest seen : List Bullet),
    (∀ b ∈ pre, g.player.rect.collidepoint b.rect.center = false) →
    hostileScan g (pre ++ rest) seen = hostileScan g rest (seen ++ pre) := by
  intro pre
  induction pre with
  | nil =>
      intro rest seen _
      rw [List.nil_append, List.append_nil]
  | cons x xs ih =>
      intro rest seen h
      rw [List.cons_append, hostileScan]
      simp only [h x (List.mem_cons_self x xs), Bool.false_eq_true, if_false]
      rw [ih rest (seen ++ [x]) (fun b hb => h b (List.mem_cons_of_mem x hb))]
      rw [List.append_assoc, List.singleton_append]

theorem hostileScan_hit (g : Game) (eb : Bullet) (rest seen : List Bullet)
    (hhit : g.player.rect.collidepoint eb.rect.center = true) :
    hostileScan g (eb :: rest) seen =
      { g with
        player := { (if 0 < g.player.shield_timer then
            { g.player with shield_timer := max 0 (g.player.shield_timer - 0.35) }
          else { g.player with hp := g.player.hp - 1 }) with invuln := 0.5 },
        effects := g.effects ++ [Explosion.init eb.pos Color.red 0.25],
        shake := g.shake.bump (if 0 < g.player.shield_timer then 3 else 7),
        enemy_bullets := seen ++ rest } := by
  rw [hostileScan]
  simp only [hhit, if_true]

theorem spawnPhase_go (g : Game) (o : Oracle) :
    (spawnPhase g o).game_over = g.game_over := by
  unfold spawnPhase
  split_ifs <;> rfl

theorem ramHit_enemies (g : Game) (e : Enemy) : (ramHit g e).enemies = g.enemies := rfl

theorem ramFold_noshield (rams : List Enemy) :
    ∀ g : Game, g.player.shield_timer ≤ 0 →
    (rams.foldl ramHit g).player.hp = g.player.hp - (rams.length : ℤ) ∧
    (rams.foldl ramHit g).player.shield_timer = g.player.shield_timer := by
  induction rams with
  | nil => intro g _; simp
  | cons e tl ih =>
      intro g h
      rw [List.foldl_cons]
      have hstep : ramHit g e =
          { g with
            player := { { g.player with hp := g.player.hp - 1 } with invuln := 0.6 },
            effects := g.effects ++ [Explosion.init e.pos Color.orange 0.35],
            shake := g.shake.bump 9 } := by
        unfold ramHit
        rw [if_neg (not_lt.mpr h)]
      rw [hstep]
      obtain ⟨h1, h2⟩ := ih
        { g with
          player := { { g.player with hp := g.player.hp - 1 } with invuln := 0.6 },
          effects := g.effects ++ [Explosion.init e.pos Color.orange 0.35],
          shake := g.shake.bump 9 } h
      refine ⟨?_, h2⟩
      rw [h1]
      show g.player.hp - 1 - (tl.length : ℤ) = g.player.hp - (((e :: tl).length : ℕ) : ℤ)
      push_cast [List.length_cons]
      ring

theorem ramFold_invuln (rams : List Enemy) :
    ∀ g : Game, rams ≠ [] → (rams.foldl ramHit g).player.invuln = 0.6 := by
  induction rams with
  | nil => intro g h; exact absurd rfl h
  | cons e tl ih =>
      intro g _
      rw [List.foldl_cons]
      by_cases ht : tl = []
      · subst ht
        rw [List.foldl_nil]
        rfl
      · exact ih _ ht

theorem enemyHitStep_hp (b : Bullet) (o : Oracle) (acc : Game × ℕ) (e : Enemy) :
    (enemyHitStep b o acc e).1.player.hp = acc.1.player.hp := by
  unfold enemyHitStep
  dsimp only
  split_ifs <;> rfl

theorem enemyBranch_hp (o : Oracle) (g : Game) (k : ℕ) (kept : List Bullet)
    (b : Bullet) : (enemyBranch o g k kept b).1.player.hp = g.player.hp := by
  unfold enemyBranch
  dsimp only
  split_ifs
  · rfl
  · exact foldlProj (enemyHitStep b o) (fun acc => acc.1.player.hp)
      (fun acc e => enemyHitStep_hp b o acc e) g.enemies ({ g with enemies := [] }, k)

theorem friendlyBulletStep_hp (o : Oracle) (acc : Game × ℕ × List Bullet)
    (b : Bullet) : (friendlyBulletStep o acc b).1.player.hp = acc.1.player.hp := by
  unfold friendlyBulletStep
  dsimp only
  split_ifs
  · cases hb : acc.1.boss with
    | none => exact enemyBranch_hp o acc.1 acc.2.1 acc.2.2 b
    | some bo =>
        dsimp only
        split_ifs
        · rfl
        · exact enemyBranch_hp o acc.1 acc.2.1 acc.2.2 b
  · rfl

theorem friendlyHitPhase_hp (g : Game) (o : Oracle) :
    (friendlyHitPhase g o).player.hp = g.player.hp := by
  unfold friendlyHitPhase
  dsimp only
  exact foldlProj (friendlyBulletStep o) (fun acc => acc.1.player.hp)
    (fun acc b => friendlyBulletStep_hp o acc b) g.all_bullets (g, 0, [])

theorem hostileScan_hp (g : Game) :
    ∀ (l seen : List Bullet), (hostileScan g l seen).player.hp ≤ g.player.hp := by
  intro l
  induction l with
  | nil => intro seen; exact le_refl _
  | cons eb rest ih =>
      intro seen
      rw [hostileScan]
      split_ifs
      · exact le_refl _
      · dsimp only
        omega
      · exact ih (seen ++ [eb])

theorem hostileHitPhase_hp (g : Game) : (hostileHitPhase g).player.hp ≤ g.player.hp := by
  unfold hostileHitPhase
  split_ifs
  · exact hostileScan_hp g g.enemy_bullets []
  · exact le_refl _

theorem ramHit_hp (g : Game) (e : Enemy) : (ramHit g e).player.hp ≤ g.player.hp := by
  unfold ramHit
  dsimp only
  split_ifs
  · exact le_refl _
  · dsimp only
    omega

theorem ramPhase_hp (g : Game) : (ramPhase g).player.hp ≤ g.player.hp := by
  unfold ramPhase
  dsimp only
  exact foldlInv ramHit (fun a => a.player.hp ≤ g.player.hp)
    (fun a e ha => le_trans (ramHit_hp a e) ha) _ _ (le_refl _)

theorem pickupHit_hp5 (g : Game) (p : PowerUp) (h : g.player.hp ≤ 5) :
    (pickupHit g p).player.hp ≤ 5 := by
  unfold pickupHit
  cases p.kind
  · exact h
  · exact h
  · dsimp only
    exact min_le_left _ _

theorem pickupPhase_hp5 (g : Game) (h : g.player.hp ≤ 5) :
    (pickupPhase g).player.hp ≤ 5 := by
  unfold pickupPhase
  dsimp only
  exact foldlInv pickupHit (fun a => a.player.hp ≤ 5)
    (fun a p ha => pickupHit_hp5 a p ha) _ _ h

theorem bossGatePhase_player (g : Game) : (bossGatePhase g).player = g.player := by
  unfold bossGatePhase
  split_ifs <;> rfl

theorem groupsPhase_player (g : Game) (dt : ℚ) (o : Oracle) :
    (groupsPhase g dt o).player = g.player := by
  unfold groupsPhase
  dsimp only
  cases hb : g.boss <;> rfl

/-! The claims. -/

/-- C1: on a tick whose spawn cooldown fires at elapsed time `t = time + dt`,
the cooldown is reset to `spawnInterval t = max(0.25, 0.55 − min(0.3, t/120))`;
this interval is monotonically non-increasing in the elapsed time, never
below its floor 0.25, and equal to the floor for every elapsed time with
`t/120` at the cap 0.3 (that is, `t ≥ 36`), hence permanently. -/
theorem c1_spawn_interval (g : Game) (dt : ℚ) (k : Pressed) (o : Oracle) (t₂ : ℚ)
    (hgo : g.game_over = false)
    (hready : (g.spawn_t.update dt).ready = true)
    (_h0 : 0 ≤ g.time + dt) (h2 : g.time + dt ≤ t₂) :
    (Game.update g dt k o).spawn_t.t = spawnInterval (g.time + dt) ∧
    spawnInterval t₂ ≤ spawnInterval (g.time + dt) ∧
    (1/4 : ℚ) ≤ spawnInterval (g.time + dt) ∧
    (36 ≤ g.time + dt → spawnInterval (g.time + dt) = 1/4) ∧
    spawnInterval (g.time + dt) = max 0.25 (0.55 - min 0.3 ((g.time + dt) / 120)) := by
  refine ⟨?_, ?_, ?_, ?_, ?_⟩
  · rw [updateActive g dt k o hgo, gameOverPhase_spawn_t,
        (afterSpawn_frame _ dt o).1, spawnPhase_ready _ o hready]
    rfl
  · unfold spawnInterval
    exact max_le_max le_rfl (sub_le_sub_left
      (min_le_min le_rfl ((div_le_div_iff_of_pos_right (by norm_num)).mpr h2)) _)
  · unfold spawnInterval
    rw [le_max_iff]
    left
    norm_num
  · intro h36
    unfold spawnInterval ENEMY_SPAWN_EVERY
    have hcap : min (0.3 : ℚ) ((g.time + dt) / 120) = 0.3 := by
      rw [min_eq_left]
      rw [le_div_iff₀ (by norm_num : (0:ℚ) < 120)]
      linarith
    rw [hcap]
    norm_num
  · rfl

theorem c1_spawn_interval_witness :
    (Game.update earlyG 0 pressed0 o0).spawn_t.t = spawnInterval (40 + 0) ∧
    spawnInterval 50 ≤ spawnInterval (40 + 0) ∧
    (1/4 : ℚ) ≤ spawnInterval (40 + 0) ∧
    (36 ≤ (40 : ℚ) + 0 → spawnInterval (40 + 0) = 1/4) ∧
    spawnInterval (40 + 0) = max 0.25 (0.55 - min 0.3 ((40 + 0) / 120)) :=
  c1_spawn_interval earlyG 0 pressed0 o0 50 rfl
    (by simp [earlyG, Timer.update, Timer.ready]) (by norm_num [earlyG])
    (by norm_num [earlyG])

/-- C2: on a tick started with no boss alive, the updated state holds a
boss exactly when the gate held at that tick — elapsed time `time + dt`
above 50 and (score above 400 or elapsed time above 65); since the gate
runs every tick, it is re-checked until satisfied. While a boss is alive
the gate is skipped entirely, and the boss slot — the source's
`GroupSingle`, an `Option` here — holds at most one boss at any time. -/
theorem c2_boss_gate (g : Game) (dt : ℚ) (k : Pressed) (o : Oracle)
    (hgo : g.game_over = false) (hb : g.boss = none) :
    ((Game.update g dt k o).boss.isSome = true ↔
      (g.time + dt > 50 ∧ (g.player.score > 400 ∨ g.time + dt > 65))) ∧
    (∀ g' : Game, g'.boss.isSome = true → (bossGatePhase g').boss = g'.boss) := by
  constructor
  · rw [updateActive g dt k o hgo, gameOverPhase_boss]
    unfold afterSpawn
    rw [pickupPhase_boss, ramPhase_boss, hostileHitPhase_boss]
    set X := spawnPhase (timersPhase (playerPhase g dt k o.sq) dt) o with hXdef
    have hX : X.boss = none := by rw [hXdef, spawnPhase_boss]; exact hb
    have ht : X.time = g.time + dt := spawnPhase_time _ o
    have hsc : X.player.score = g.player.score := by
      rw [hXdef, spawnPhase_player]
      exact playerPhase_score g dt k o.sq
    by_cases hc : g.time + dt > 50 ∧ (g.player.score > 400 ∨ g.time + dt > 65)
    · have hgate : (bossGatePhase X).boss = some Boss.init :=
        bossGatePhase_spawns X hX (by rw [ht]; exact hc.1) (by rw [hsc, ht]; exact hc.2)
      have h5 := groupsPhase_boss_isSome _ dt o Boss.init hgate (by norm_num [Boss.init])
      have h6 := friendlyHitPhase_boss_isSome _ o h5
      rw [h6]
      exact ⟨fun _ => hc, fun _ => rfl⟩
    · have hgate : (bossGatePhase X).boss = none :=
        bossGatePhase_skips X hX (by rw [ht, hsc]; exact hc)
      have h5 := groupsPhase_boss_none _ dt o hgate
      have h6 := friendlyHitPhase_boss_none _ o h5
      rw [h6]
      constructor
      · intro hh; simp at hh
      · intro hcc; exact absurd hcc hc
  · intro g' h'
    unfold bossGatePhase
    split_ifs with h1 h2
    · exfalso
      have := h1.2
      rw [Option.isNone_iff_eq_none] at this
      rw [this] at h'
      simp at h'
    · rfl
    · rfl

theorem c2_boss_gate_witness :
    ((Game.update lateG 1 pressed0 o0).boss.isSome = true ↔
      (lateG.time + 1 > 50 ∧ (lateG.player.score > 400 ∨ lateG.time + 1 > 65))) ∧
    (∀ g' : Game, g'.boss.isSome = true → (bossGatePhase g').boss = g'.boss) :=
  c2_boss_gate lateG 1 pressed0 o0 rfl rfl

/-- C4: a friendly projectile not consumed by the boss test and whose hit
set is nonempty resolves against the whole hit set: it is destroyed
exactly once (dropped from the kept bullets, after the set is processed),
every overlapping enemy takes its damage with those reaching ≤ 0 hit
points removed (so one projectile overlapping three enemies damages all
three), the score rises by 10 per kill, one hit effect is emitted per
overlapped enemy, one "+10" floater and one shake impulse of 5 per kill,
and each kill consumes one drop roll, dropping a power-up exactly on a
roll < 0.1. -/
theorem c4_multi_enemy (o : Oracle) (g : Game) (k : ℕ) (kept : List Bullet)
    (b : Bullet) (hb : b.friendly = true)
    (hnb : ∀ bo, g.boss = some bo → bo.rect.collidepoint b.rect.center = false)
    (hne : (g.enemies.filter (fun e => e.rect.collidepoint b.rect.center)).isEmpty
      = false) :
    (friendlyBulletStep o (g, k, kept) b).2.2 = kept ∧
    (friendlyBulletStep o (g, k, kept) b).1.enemies = specEnemiesAfterHit b g.enemies ∧
    (friendlyBulletStep o (g, k, kept) b).1.player.score
      = g.player.score + 10 * ((specKilled b g.enemies).length : ℤ) ∧
    (friendlyBulletStep o (g, k, kept) b).1.effects
      = g.effects ++ (specHits b g.enemies).map
          (fun _ => Explosion.init b.pos Color.orange 0.2) ∧
    (friendlyBulletStep o (g, k, kept) b).1.floaters
      = g.floaters ++ (specKilled b g.enemies).map
          (fun e => FloatingText.init e.pos "+10" Color.yellow) ∧
    (friendlyBulletStep o (g, k, kept) b).1.powerups
      = g.powerups ++ specDrops o k (specKilled b g.enemies) ∧
    (friendlyBulletStep o (g, k, kept) b).1.shake
      = (specKilled b g.enemies).foldl (fun c _ => c.bump 5) g.shake ∧
    (friendlyBulletStep o (g, k, kept) b).2.1 = k + (specKilled b g.enemies).length := by
  have hred : friendlyBulletStep o (g, k, kept) b =
      ((g.enemies.foldl (enemyHitStep b o) ({ g with enemies := [] }, k)).1,
       (g.enemies.foldl (enemyHitStep b o) ({ g with enemies := [] }, k)).2, kept) := by
    unfold friendlyBulletStep
    dsimp only
    simp only [hb, if_true]
    cases hbo : g.boss with
    | none =>
        unfold enemyBranch
        dsimp only
        simp only [hne, Bool.false_eq_true, if_false]
        rw [hbo]
    | some bo =>
        dsimp only
        simp only [hnb bo hbo, Bool.false_eq_true, if_false]
        unfold enemyBranch
        dsimp only
        simp only [hne, Bool.false_eq_true, if_false]
        rw [hbo]
  rw [hred, enemyHit_fold b o g.enemies { g with enemies := [] } k]
  exact ⟨rfl, rfl, rfl, rfl, rfl, rfl, rfl, rfl⟩

theorem c4_multi_enemy_witness :
    (friendlyBulletStep o0 (tripleG, 0, []) strongB).2.2 = [] ∧
    (friendlyBulletStep o0 (tripleG, 0, []) strongB).1.enemies
      = specEnemiesAfterHit strongB tripleG.enemies ∧
    (friendlyBulletStep o0 (tripleG, 0, []) strongB).1.player.score
      = tripleG.player.score + 10 * ((specKilled strongB tripleG.enemies).length : ℤ) ∧
    (friendlyBulletStep o0 (tripleG, 0, []) strongB).1.effects
      = tripleG.effects ++ (specHits strongB tripleG.enemies).map
          (fun _ => Explosion.init strongB.pos Color.orange 0.2) ∧
    (friendlyBulletStep o0 (tripleG, 0, []) strongB).1.floaters
      = tripleG.floaters ++ (specKilled strongB tripleG.enemies).map
          (fun e => FloatingText.init e.pos "+10" Color.yellow) ∧
    (friendlyBulletStep o0 (tripleG, 0, []) strongB).1.powerups
      = tripleG.powerups ++ specDrops o0 0 (specKilled strongB tripleG.enemies) ∧
    (friendlyBulletStep o0 (tripleG, 0, []) strongB).1.shake
      = (specKilled strongB tripleG.enemies).foldl (fun c _ => c.bump 5) tripleG.shake ∧
    (friendlyBulletStep o0 (tripleG, 0, []) strongB).2.1
      = 0 + (specKilled strongB tripleG.enemies).length :=
  c4_multi_enemy o0 tripleG 0 [] strongB rfl
    (by intro bo h; simp [tripleG, Game.reset] at h) (by decide)

/-- C5: hostile projectiles are tested against the player only while
invulnerability is ≤ 0 (otherwise the phase is the identity), and only the
first overlapping projectile in group order is processed — the rest of the
group survives untouched, however many overlap. On that hit, with shield
remaining > 0 the shield absorbs it (−0.35, clamped at 0) and hit points
are unchanged, otherwise one hit point is lost and the shield time is
unchanged; in either case invulnerability is set to 0.5 and the projectile
is destroyed. -/
theorem c5_hostile_hit (g : Game) (pre rest : List Bullet) (eb : Bullet)
    (hsplit : g.enemy_bullets = pre ++ eb :: rest)
    (hpre : ∀ b ∈ pre, g.player.rect.collidepoint b.rect.center = false)
    (hhit : g.player.rect.collidepoint eb.rect.center = true) :
    (0 < g.player.invuln → hostileHitPhase g = g) ∧
    (g.player.invuln ≤ 0 →
      (hostileHitPhase g).enemy_bullets = pre ++ rest ∧
      (hostileHitPhase g).player.invuln = 0.5 ∧
      (0 < g.player.shield_timer →
        (hostileHitPhase g).player.shield_timer = max 0 (g.player.shield_timer - 0.35) ∧
        (hostileHitPhase g).player.hp = g.player.hp) ∧
      (g.player.shield_timer ≤ 0 →
        (hostileHitPhase g).player.hp = g.player.hp - 1 ∧
        (hostileHitPhase g).player.shield_timer = g.player.shield_timer)) := by
  constructor
  · intro hinv
    unfold hostileHitPhase
    rw [if_neg (not_le.mpr hinv)]
  · intro hinv
    unfold hostileHitPhase
    rw [if_pos hinv, hsplit,
        hostileScan_skip g pre (eb :: rest) [] hpre,
        hostileScan_hit g eb rest ([] ++ pre) hhit]
    refine ⟨by rw [List.nil_append], rfl, ?_, ?_⟩
    · intro hsh
      constructor
      · dsimp only
        rw [if_pos hsh]
      · dsimp only
        rw [if_pos hsh]
    · intro hsh
      constructor
      · dsimp only
        rw [if_neg (not_lt.mpr hsh)]
      · dsimp only
        rw [if_neg (not_lt.mpr hsh)]

theorem c5_hostile_hit_witness :
    ((0 < shieldG.player.invuln → hostileHitPhase shieldG = shieldG) ∧
    (shieldG.player.invuln ≤ 0 →
      (hostileHitPhase shieldG).enemy_bullets = [] ++ [] ∧
      (hostileHitPhase shieldG).player.invuln = 0.5 ∧
      (0 < shieldG.player.shield_timer →
        (hostileHitPhase shieldG).player.shield_timer
          = max 0 (shieldG.player.shield_timer - 0.35) ∧
        (hostileHitPhase shieldG).player.hp = shieldG.player.hp) ∧
      (shieldG.player.shield_timer ≤ 0 →
        (hostileHitPhase shieldG).player.hp = shieldG.player.hp - 1 ∧
        (hostileHitPhase shieldG).player.shield_timer
          = shieldG.player.shield_timer))) ∧
    max (0 : ℚ) (1/5 - 0.35) = 0 :=
  ⟨c5_hostile_hit shieldG [] [] hostileB rfl
      (by intro b hb; exact absurd hb (List.not_mem_nil b)) (by decide),
   by norm_num⟩

/-- C6: in the ramming step every enemy overlapping the player is
destroyed — the surviving enemies are exactly the non-overlapping ones —
and each ram applies its damage independently: with no shield, the
player's hit points drop by the number of ramming enemies (two rams in one
tick cost 2, not capped at 1) and shield time is unchanged. The step is
not gated by invulnerability — there is no hypothesis on `invuln` — and
any ram resets invulnerability to 0.6. -/
theorem c6_ramming (g : Game) :
    (ramPhase g).enemies
      = g.enemies.filter (fun e => !(g.player.rect.colliderect e.rect)) ∧
    (g.player.shield_timer ≤ 0 →
      (ramPhase g).player.hp = g.player.hp
        - ((g.enemies.filter (fun e => g.player.rect.colliderect e.rect)).length : ℤ)) ∧
    (g.enemies.filter (fun e => g.player.rect.colliderect e.rect) ≠ [] →
      (ramPhase g).player.invuln = 0.6) := by
  unfold ramPhase
  dsimp only
  refine ⟨?_, ?_, ?_⟩
  · rw [foldlProj ramHit (fun a => a.enemies) (fun a e => ramHit_enemies a e)]
  · intro hsh
    exact (ramFold_noshield _
      { g with enemies := g.enemies.filter (fun e => !(g.player.rect.colliderect e.rect)) }
      hsh).1
  · intro hne
    exact ramFold_invuln _
      { g with enemies := g.enemies.filter (fun e => !(g.player.rect.colliderect e.rect)) }
      hne

theorem c6_ramming_witness :
    ((ramPhase invulnG).enemies
      = invulnG.enemies.filter (fun e => !(invulnG.player.rect.colliderect e.rect)) ∧
    (invulnG.player.shield_timer ≤ 0 →
      (ramPhase invulnG).player.hp = invulnG.player.hp
        - ((invulnG.enemies.filter
            (fun e => invulnG.player.rect.colliderect e.rect)).length : ℤ)) ∧
    (invulnG.enemies.filter (fun e => invulnG.player.rect.colliderect e.rect) ≠ [] →
      (ramPhase invulnG).player.invuln = 0.6)) ∧
    0 < invulnG.player.invuln ∧
    (invulnG.enemies.filter
      (fun e => invulnG.player.rect.colliderect e.rect)).length = 2 :=
  ⟨c6_ramming invulnG, by norm_num [invulnG], by decide⟩

/-- C8: starting from a non-terminal state, the updated state is terminal
exactly when its hit points are ≤ 0 — the transition happens in the very
tick the hit points reach ≤ 0 — and when they do, a burst of 10 explosion
effects at jittered offsets around the player's position is appended to
the effects; once terminal, a further update (any dt, input and oracle) is
the identity: no hit-point, score, spawn or any other mutation occurs. -/
theorem c8_terminal (g : Game) (dt : ℚ) (k : Pressed) (o : Oracle)
    (dt' : ℚ) (k' : Pressed) (o' : Oracle) (hgo : g.game_over = false) :
    ((Game.update g dt k o).game_over = true ↔ (Game.update g dt k o).player.hp ≤ 0) ∧
    ((Game.update g dt k o).game_over = true →
      Game.update (Game.update g dt k o) dt' k' o' = Game.update g dt k o) ∧
    ((Game.update g dt k o).player.hp ≤ 0 →
      ∃ fx, (Game.update g dt k o).effects = fx ++ (List.range 10).map
        (fun i => Explosion.init
          (Vec.add (Game.update g dt k o).player.pos (o.playerFxOff i))
          Color.orange 0.35)) := by
  have hsecond : ∀ h : (Game.update g dt k o).game_over = true,
      Game.update (Game.update g dt k o) dt' k' o' = Game.update g dt k o :=
    fun h => updateTerminal _ dt' k' o' h
  rw [updateActive g dt k o hgo]
  set Y := afterSpawn (spawnPhase (timersPhase (playerPhase g dt k o.sq) dt) o) dt o
    with hY
  have hinner : Y.game_over = false := by
    rw [hY, (afterSpawn_frame _ dt o).2.2.1, spawnPhase_go]
    exact hgo
  refine ⟨?_, ?_, ?_⟩
  · rw [gameOverPhase_player]
    exact gameOverPhase_go Y o hinner
  · intro hterm
    have := hsecond (by rw [updateActive g dt k o hgo]; exact hterm)
    rw [updateActive g dt k o hgo] at this
    exact this
  · intro hhp
    rw [gameOverPhase_player] at hhp
    rw [gameOverPhase_fx Y o hhp, gameOverPhase_player]
    exact ⟨Y.effects, rfl⟩

theorem c8_terminal_witness :
    ((Game.update Game.reset 0 pressed0 o0).game_over = true ↔
      (Game.update Game.reset 0 pressed0 o0).player.hp ≤ 0) ∧
    ((Game.update Game.reset 0 pressed0 o0).game_over = true →
      Game.update (Game.update Game.reset 0 pressed0 o0) 1 pressed0 o0
        = Game.update Game.reset 0 pressed0 o0) ∧
    ((Game.update Game.reset 0 pressed0 o0).player.hp ≤ 0 →
      ∃ fx, (Game.update Game.reset 0 pressed0 o0).effects = fx ++ (List.range 10).map
        (fun i => Explosion.init
          (Vec.add (Game.update Game.reset 0 pressed0 o0).player.pos (o0.playerFxOff i))
          Color.orange 0.35)) :=
  c8_terminal Game.reset 0 pressed0 o0 1 pressed0 o0 rfl

/-- C9 counterexample: the claim that pausing suspends every mutation —
including projectile creation and fire-cooldown changes from the fire
input — is false on the code: the event handler calls `try_fire` with no
pause guard. In a paused, freshly reset game, one SPACE key-down event in
a frame creates three projectiles and sets the fire cooldown to 0.16,
while the game stays paused. -/
theorem c9_paused_cex :
    pausedG.paused = true ∧ pausedG.all_bullets = [] ∧
    (Game.frame pausedG [Ev.keySpace] 0 pressed0 o0).paused = true ∧
    (Game.frame pausedG [Ev.keySpace] 0 pressed0 o0).all_bullets.length = 3 ∧
    (Game.frame pausedG [Ev.keySpace] 0 pressed0 o0).player.fire_t.t = 0.16 := by
  refine ⟨rfl, rfl, ?_, ?_, ?_⟩ <;>
    norm_num [Game.frame, Game.events, List.foldl, eventStep, Player.try_fire,
      Timer.ready, Timer.set, pausedG, Game.reset, Player.init]

/-- C9 (amended): while the game is paused the simulation step is skipped
entirely — the frame is exactly the event-handling result, so entity
updates, spawning and collision resolution are all suspended and input
polling continues — but the event handler itself still processes fire
inputs: when the game is not over, a SPACE event appends `try_fire`'s
projectiles to the friendly group and applies its cooldown change, paused
or not. -/
theorem c9_pause_behavior (g : Game) (evs : List Ev) (dt : ℚ) (k : Pressed)
    (o : Oracle) (hp : (Game.events g evs).paused = true) :
    Game.frame g evs dt k o = Game.events g evs ∧
    (g.game_over = false →
      (eventStep g Ev.keySpace).all_bullets = g.all_bullets ++ g.player.try_fire.2 ∧
      (eventStep g Ev.keySpace).player = g.player.try_fire.1) := by
  constructor
  · unfold Game.frame
    dsimp only
    rw [if_pos hp]
  · intro hgo
    unfold eventStep
    dsimp only
    rw [if_neg (by simp [hgo])]
    exact ⟨rfl, rfl⟩

theorem c9_pause_behavior_witness :
    (Game.frame pausedG [Ev.keyOther] 1 pressed0 o0
        = Game.events pausedG [Ev.keyOther] ∧
    (pausedG.game_over = false →
      (eventStep pausedG Ev.keySpace).all_bullets
        = pausedG.all_bullets ++ pausedG.player.try_fire.2 ∧
      (eventStep pausedG Ev.keySpace).player = pausedG.player.try_fire.1)) :=
  c9_pause_behavior pausedG [Ev.keyOther] 1 pressed0 o0 rfl

/-- C10: projectile allegiance is immutable and sorted into the right
collection: `Bullet.update` never changes the `friendly` flag set at
construction; the player's `try_fire` emits only friendly projectiles
while enemy fire and the boss burst emit only hostile ones; after the
entity-update phase every projectile still in the friendly group
(`all_bullets`) has friendly allegiance — any hostile projectile found
there has been moved to `enemy_bullets` — and the friendly collision step
passes a non-friendly projectile through untouched, testing it against
nothing. -/
theorem c10_allegiance (dt sr nt : ℚ) (b : Bullet) (p : Player) (e : Enemy)
    (bo : Boss) (bv fo : ℕ → Vec) (g : Game) (o : Oracle)
    (acc : Game × ℕ × List Bullet) :
    ((b.update dt).1.friendly = b.friendly) ∧
    (∀ nb ∈ p.try_fire.2, nb.friendly = true) ∧
    (∀ nb ∈ (e.update dt sr).2.1, nb.friendly = false) ∧
    (∀ nb ∈ (bo.update dt nt bv fo).2.1, nb.friendly = false) ∧
    (∀ nb ∈ (groupsPhase g dt o).all_bullets, nb.friendly = true) ∧
    (b.friendly = false → friendlyBulletStep o acc b = (acc.1, acc.2.1, acc.2.2 ++ [b])) := by
  refine ⟨rfl, ?_, ?_, ?_, ?_, ?_⟩
  · intro nb hnb
    unfold Player.try_fire at hnb
    dsimp only at hnb
    split_ifs at hnb <;> dsimp only at hnb <;>
      simp only [List.mem_map, List.not_mem_nil] at hnb
    all_goals
      obtain ⟨dx, -, h⟩ := hnb
      rw [← h]
      rfl
  · intro nb hnb
    unfold Enemy.update at hnb
    dsimp only at hnb
    split_ifs at hnb
    · rw [List.mem_singleton] at hnb
      rw [hnb]
      rfl
    · exact absurd hnb (List.not_mem_nil nb)
  · intro nb
    unfold Boss.update
    dsimp only
    cases hs : bo.state
    · intro hnb
      split_ifs at hnb <;> exact absurd hnb (List.not_mem_nil nb)
    · intro hnb
      split_ifs at hnb <;>
        first
          | (rw [List.mem_map] at hnb
             obtain ⟨i, -, h⟩ := hnb
             rw [← h]
             rfl)
          | exact absurd hnb (List.not_mem_nil nb)
  · intro nb hnb
    have hgb : (groupsPhase g dt o).all_bullets
        = ((g.all_bullets.map (fun bb => bb.update dt)).filter
            (fun s => s.1.friendly && s.2)).map Prod.fst := by
      unfold groupsPhase
      dsimp only
      cases hbo : g.boss <;> rfl
    rw [hgb, List.mem_map] at hnb
    obtain ⟨s, hs, h⟩ := hnb
    rw [List.mem_filter] at hs
    rw [← h]
    exact (Bool.and_eq_true _ _ |>.mp hs.2).1
  · intro hbf
    unfold friendlyBulletStep
    dsimp only
    simp only [hbf, Bool.false_eq_true, if_false]

theorem c10_allegiance_witness :
    ((hostileB.update 1).1.friendly = hostileB.friendly) ∧
    (∀ nb ∈ Player.init.try_fire.2, nb.friendly = true) ∧
    (∀ nb ∈ (ramEnemy.update 1 1).2.1, nb.friendly = false) ∧
    (∀ nb ∈ (Boss.init.update 1 1 o0.burstVel o0.bossFxOff).2.1, nb.friendly = false) ∧
    (∀ nb ∈ (groupsPhase Game.reset 1 o0).all_bullets, nb.friendly = true) ∧
    (hostileB.friendly = false →
      friendlyBulletStep o0 (Game.reset, 0, []) hostileB
        = (Game.reset, 0, [] ++ [hostileB])) :=
  c10_allegiance 1 1 1 hostileB Player.init ramEnemy Boss.init o0.burstVel
    o0.bossFxOff Game.reset o0 (Game.reset, 0, [])

/-- C7 (amended): the upper half of the claimed invariant holds — a full
tick never raises the player's hit points above the maximum of 5, and a
heal pickup sets them to exactly `min 5 (hp + 2)` — but the lower bound
does not: hit points can drop below 0 in the tick that triggers game over
(see the counterexample), so only `hp ≤ max` is invariant at tick
boundaries. -/
theorem c7_hp_bounds (g : Game) (dt : ℚ) (k : Pressed) (o : Oracle) (p : PowerUp)
    (h5 : g.player.hp ≤ 5) (hk : p.kind = PUKind.heal) :
    (Game.update g dt k o).player.hp ≤ 5 ∧
    (pickupHit g p).player.hp = min 5 (g.player.hp + 2) := by
  constructor
  · by_cases hgo : g.game_over = true
    · rw [updateTerminal g dt k o hgo]
      exact h5
    · rw [updateActive g dt k o (by simpa using hgo), gameOverPhase_player]
      unfold afterSpawn
      apply pickupPhase_hp5
      refine le_trans (ramPhase_hp _) ?_
      refine le_trans (hostileHitPhase_hp _) ?_
      rw [friendlyHitPhase_hp, groupsPhase_player, bossGatePhase_player,
          spawnPhase_player]
      show (playerPhase g dt k o.sq).player.hp ≤ 5
      rw [playerPhase_hp]
      exact h5
  · unfold pickupHit
    rw [hk]

theorem c7_hp_bounds_witness :
    ((Game.update Game.reset 1 pressed0 o0).player.hp ≤ 5 ∧
    (pickupHit Game.reset (PowerUp.init (450, 1060) PUKind.heal (0, 0))).player.hp
      = min 5 (Game.reset.player.hp + 2)) ∧
    Game.reset.player.hp ≤ 5 :=
  ⟨c7_hp_bounds Game.reset 1 pressed0 o0 (PowerUp.init (450, 1060) PUKind.heal (0, 0))
      (by norm_num [Game.reset, Player.init]) rfl,
   by norm_num [Game.reset, Player.init]⟩

/-- C3: a friendly projectile overlapping the boss resolves against the
boss with priority: the boss loses the projectile's damage in hit points,
the score rises by 2, a hit explosion and a shake impulse of 1.2 are
emitted, the projectile is destroyed (not kept), and — by the `continue` —
it takes part in no enemy test this tick: the enemies are untouched and no
drop roll is consumed. -/
theorem c3_boss_priority (o : Oracle) (g : Game) (k : ℕ) (kept : List Bullet)
    (b : Bullet) (bo : Boss) (hb : b.friendly = true) (hboss : g.boss = some bo)
    (hover : bo.rect.collidepoint b.rect.center = true) :
    (friendlyBulletStep o (g, k, kept) b).1.boss = some { bo with hp := bo.hp - b.dmg } ∧
    (friendlyBulletStep o (g, k, kept) b).1.player.score = g.player.score + 2 ∧
    (friendlyBulletStep o (g, k, kept) b).1.effects
      = g.effects ++ [Explosion.init b.pos Color.yellow 0.2] ∧
    (friendlyBulletStep o (g, k, kept) b).1.shake = g.shake.bump 1.2 ∧
    (friendlyBulletStep o (g, k, kept) b).2.2 = kept ∧
    (friendlyBulletStep o (g, k, kept) b).1.enemies = g.enemies ∧
    (friendlyBulletStep o (g, k, kept) b).2.1 = k := by
  unfold friendlyBulletStep
  dsimp only
  rw [hb, hboss]
  dsimp only
  rw [hover]
  exact ⟨rfl, rfl, rfl, rfl, rfl, rfl, rfl⟩

theorem c3_boss_priority_witness :
    (friendlyBulletStep o0 (bossG, 0, []) originB).1.boss
        = some { Boss.init with hp := Boss.init.hp - originB.dmg } ∧
    (friendlyBulletStep o0 (bossG, 0, []) originB).1.player.score
        = bossG.player.score + 2 ∧
    (friendlyBulletStep o0 (bossG, 0, []) originB).1.effects
        = bossG.effects ++ [Explosion.init originB.pos Color.yellow 0.2] ∧
    (friendlyBulletStep o0 (bossG, 0, []) originB).1.shake = bossG.shake.bump 1.2 ∧
    (friendlyBulletStep o0 (bossG, 0, []) originB).2.2 = [] ∧
    (friendlyBulletStep o0 (bossG, 0, []) originB).1.enemies = bossG.enemies ∧
    (friendlyBulletStep o0 (bossG, 0, []) originB).2.1 = 0 :=
  c3_boss_priority o0 bossG 0 [] originB Boss.init rfl rfl rfl


/-- C7 counterexample: the claimed invariant "hit points lie within
[0, max] at every tick boundary" fails on the code. In `doomedG` — a
mid-game state with the player at 1 hit point, no shield and two enemies
overlapping it — one tick applies both rams independently, leaving hit
points at −1 at the tick boundary that enters the terminal state. -/
theorem c7_negative_hp_cex :
    doomedG.player.hp = 1 ∧ doomedG.game_over = false ∧
    (Game.update doomedG 0 pressed0 o0).player.hp = -1 ∧
    (Game.update doomedG 0 pressed0 o0).game_over = true := by
  refine ⟨rfl, rfl, ?_, ?_⟩ <;>
    norm_num [Game.update, playerPhase, timersPhase, spawnPhase, bossGatePhase,
      groupsPhase, afterSpawn, friendlyHitPhase, friendlyBulletStep, enemyBranch,
      enemyHitStep, hostileHitPhase, hostileScan, ramPhase, ramHit, pickupPhase,
      pickupHit, gameOverPhase, Player.update, Player.try_fire, Enemy.update,
      Timer.update, Timer.ready, Timer.set, CameraShake.update, CameraShake.bump,
      Bullet.update, PowerUp.update, Explosion.update, FloatingText.update,
      Rect.collidepoint, Rect.colliderect, Rect.setCenter, Rect.center, Rect.right,
      Rect.bottom, pyInt, Vec.add, Vec.smul, doomedG, Game.reset, Player.init,
      Enemy.init, ramEnemy, pressed0, o0, spawnInterval, ENEMY_SPAWN_EVERY,
      ENEMY_RADIUS, WIDTH, HEIGHT, SHAKE_DECAY, List.foldl, List.filter, List.map,
      List.enum]

end AirCombat
